import Mathlib

/-!
Verification of the halloween-party-game server core: the event scheduler,
the per-session cursor resolver, the answer evaluator and the answer
submission route, shallowly embedded from the TypeScript sources
(`server/src/eventScheduler.ts`, `server/src/answerHandler.ts`,
`server/src/database/db.ts`, `server/src/routes/api.ts`).

Modelling conventions:
* ISO-8601 timestamps are modelled by their parsed epoch-millisecond value
  (an `Int`), i.e. `new Date(s).getTime()` is applied at the model boundary;
  `new Date().toISOString()` followed by re-parsing round-trips to `now`.
* JavaScript `RegExp(pattern).test(s)` is an external runtime primitive; the
  embedding is parametrised by a function `regexTest : String → String → Bool`.
* `setTimeout` timers are modelled explicitly: armed event-trigger timers
  live in the runtime's `eventTimers` list, each with the handle returned
  by `setTimeout`; the scheduler's `scheduledTimeouts` map maps event ids
  to handles (as in source), so overwriting an entry orphans — but does not
  cancel — the earlier timer; the anonymous auto-hide `setTimeout`s, never
  stored in that map, live in a separate `autoHideTimers` list.
* String replacement follows ECMAScript `GetSubstitution`: the `$`-patterns
  of the replacement string (`$$`, `$&`, dollar-backquote, dollar-quote)
  are interpreted; with zero capture groups all other `$` sequences are
  literal.
* JavaScript truthiness is modelled where the source relies on it:
  `!eventId` is true for a missing or empty string, `if (event.duration)`
  is false for a missing or zero duration, `!triggerKey` is true for a
  null or empty trigger key.
-/

namespace HalloweenGame

/-- The `type` discriminant of an event (`EventConfig.type` in `types.ts`). -/
inductive EventType where
  | text
  | question
  | multipleChoice
  | customComponent
  | none
deriving DecidableEq, Repr

/-- One entry of a multiple-choice `options` array. -/
structure ChoiceOption where
  id : String
  text : String
  value : String
deriving DecidableEq, Repr

/-- The discriminated union `ValidationConfig` from `types.ts`. -/
inductive ValidationConfig where
  | exact (correctAnswers : List String)
  | regex (pattern : String)
  | custom (customValidator : String)
deriving DecidableEq, Repr

/-- A JavaScript value submitted as an answer (`answer: any`). The
constructors cover the value shapes the server handles: strings, numbers
(integral), and booleans. -/
inductive AnswerValue where
  | str (s : String)
  | num (n : Int)
  | bool (b : Bool)
deriving DecidableEq, Repr

/-- JavaScript `String(value)` on an `AnswerValue`. -/
def jsToString : AnswerValue → String
  | .str s => s
  | .num n => toString n
  | .bool b => if b then "true" else "false"

/-- The whitespace characters stripped by JavaScript `String.prototype.trim`
(restricted to the ASCII whitespace actually occurring in answers). -/
def isJsWhitespace (c : Char) : Bool :=
  c = ' ' || c = '\t' || c = '\n' || c = '\r'

/-- JavaScript `String.prototype.trim`: strip whitespace from both ends. -/
def jsTrim (s : String) : String :=
  ⟨((s.data.dropWhile isJsWhitespace).reverse.dropWhile isJsWhitespace).reverse⟩

/-- JavaScript `String.prototype.toLowerCase` (ASCII range; the answers and
configured strings the system compares are ASCII). -/
def jsToLowerChar (c : Char) : Char :=
  if 'A' ≤ c ∧ c ≤ 'Z' then Char.ofNat (c.toNat + 32) else c

/-- Lowercase every character of a string. -/
def jsToLower (s : String) : String := ⟨s.data.map jsToLowerChar⟩

/-- The normalisation `String(answer).trim().toLowerCase()` applied by the
answer validator. -/
def normalizeJs (a : AnswerValue) : String := jsToLower (jsTrim (jsToString a))

/-- The backquote character, written by code point to keep it out of the
source text. -/
def backquoteChar : Char := Char.ofNat 96

/-- The single-quote character, written by code point to keep it out of the
source text. -/
def quoteChar : Char := Char.ofNat 39

/-- ECMAScript `GetSubstitution` for a string replacement under a regular
expression with zero capture groups, as applies to
`content.replace(new RegExp(placeholder, 'g'), String(value))`: in the
replacement string, `$$` yields `$`, `$&` yields the matched substring,
`$`-backquote yields the portion of the subject before the match,
`$`-quote yields the portion after it, and every other `$` sequence
(including `$1`..`$9` and `$<`, since there are no capture groups) is taken
literally. `matched` is the matched substring, `pre` and `suf` the
portions of the original subject around the match. -/
def getSubstitution (matched pre suf : List Char) : List Char → List Char
  | [] => []
  | [c] => [c]
  | c :: c2 :: rest2 =>
    if c = '$' then
      if c2 = '$' then c :: getSubstitution matched pre suf rest2
      else if c2 = '&' then matched ++ getSubstitution matched pre suf rest2
      else if c2 = backquoteChar then
        pre ++ getSubstitution matched pre suf rest2
      else if c2 = quoteChar then
        suf ++ getSubstitution matched pre suf rest2
      else c :: getSubstitution matched pre suf (c2 :: rest2)
    else c :: getSubstitution matched pre suf (c2 :: rest2)

/-- Left-to-right, non-overlapping global replacement of a literal pattern,
as performed by `content.replace(new RegExp(placeholder, 'g'), value)` for
the placeholder tokens (which contain no regex metacharacters beyond the
literal braces); every inserted replacement goes through `getSubstitution`
(the JavaScript `$`-patterns applied to the replacement string), and
replacements are not rescanned. `seen` accumulates the already-consumed
subject in reverse (for the `$`-backquote case); the fuel argument
(instantiated with the input length) only forces structural
termination. -/
def replaceAllLoop (pat rep : List Char) : Nat → List Char → List Char → List Char
  | 0, _, cs => cs
  | _ + 1, _, [] => []
  | fuel + 1, seen, c :: rest =>
    if pat ≠ [] ∧ (c :: rest).take pat.length = pat then
      getSubstitution pat seen.reverse ((c :: rest).drop pat.length) rep ++
        replaceAllLoop pat rep fuel (pat.reverse ++ seen)
          ((c :: rest).drop pat.length)
    else c :: replaceAllLoop pat rep fuel (c :: seen) rest

/-- Global replacement on strings with JavaScript substitution semantics
for the replacement string. -/
def replaceAll (s pat rep : String) : String :=
  ⟨replaceAllLoop pat.data rep.data s.data.length [] s.data⟩

/-- The purely literal global replacement the specification's words
describe ("replaced by the literal answer text"), kept for comparison with
the code's `$`-aware `replaceAll`: the two agree exactly when the
replacement string contains no `$`. -/
def literalReplaceAllLoop (pat rep : List Char) : Nat → List Char → List Char
  | 0, cs => cs
  | _ + 1, [] => []
  | fuel + 1, c :: rest =>
    if pat ≠ [] ∧ (c :: rest).take pat.length = pat then
      rep ++ literalReplaceAllLoop pat rep fuel ((c :: rest).drop pat.length)
    else c :: literalReplaceAllLoop pat rep fuel rest

/-- Literal global replacement on strings (specification-side notion). -/
def literalReplaceAll (s pat rep : String) : String :=
  ⟨literalReplaceAllLoop pat.data rep.data s.data.length s.data⟩

/-- JavaScript `JSON.stringify(value)` on an `AnswerValue` (escaping of
special characters inside strings is not modelled). -/
def jsonStringify : AnswerValue → String
  | .str s => "\"" ++ s ++ "\""
  | .num n => toString n
  | .bool b => if b then "true" else "false"

/-- The non-recursive fields of `EventConfig` (`types.ts`): the optional
fields of the event bag, with `triggerAt` already parsed to epoch ms. -/
structure EventBase where
  id : String
  triggerAt : Int
  type : EventType
  content : Option String := Option.none
  placeholder : Option String := Option.none
  options : Option (List ChoiceOption) := Option.none
  componentName : Option String := Option.none
  props : Option (List (String × AnswerValue)) := Option.none
  duration : Option Int := Option.none
  mandatory : Option Bool := Option.none
  validation : Option ValidationConfig := Option.none
deriving DecidableEq, Repr

/-- `triggers.onAnswer` from `types.ts`:
`Record<string, EventConfig[]> | EventConfig[]`. -/
inductive OnAnswerF (α : Type) where
  | keyed (entries : List (String × List α))
  | plain (events : List α)

/-- A full `EventConfig`: the flat fields plus the recursive
`triggers.onAnswer` branch table. The source's `onComplete`, `onFail` and
`onEvent` trigger kinds are declared in `types.ts` but read nowhere in the
server, so the trigger object is represented by its only consumed field. -/
inductive EventConfig where
  | mk (base : EventBase) (onAnswer : Option (OnAnswerF EventConfig))

/-- The `base` projection of an event. -/
def EventConfig.base : EventConfig → EventBase
  | .mk b _ => b

/-- The `triggers?.onAnswer` projection of an event. -/
def EventConfig.onAnswer : EventConfig → Option (OnAnswerF EventConfig)
  | .mk _ t => t

def EventConfig.id (e : EventConfig) : String := e.base.id
def EventConfig.triggerAt (e : EventConfig) : Int := e.base.triggerAt
def EventConfig.type (e : EventConfig) : EventType := e.base.type
def EventConfig.content (e : EventConfig) : Option String := e.base.content
def EventConfig.duration (e : EventConfig) : Option Int := e.base.duration
def EventConfig.mandatory (e : EventConfig) : Option Bool := e.base.mandatory
def EventConfig.validation (e : EventConfig) : Option ValidationConfig :=
  e.base.validation

/-- `DisplayEvent` from `types.ts`: the client-facing view of an event. -/
structure DisplayEvent where
  type : EventType
  eventId : String
  content : String
  placeholder : Option String := Option.none
  options : Option (List ChoiceOption) := Option.none
  componentName : Option String := Option.none
  props : Option (List (String × AnswerValue)) := Option.none
  duration : Option Int := Option.none
  mandatory : Option Bool := Option.none
deriving DecidableEq, Repr

/-- `eventToDisplayEvent` (`eventScheduler`): convert an `EventConfig` to a
`DisplayEvent`, defaulting a missing `content` to the empty string. -/
def eventToDisplayEvent (e : EventConfig) : DisplayEvent :=
  { type := e.base.type
    eventId := e.base.id
    content := e.base.content.getD ""
    placeholder := e.base.placeholder
    options := e.base.options
    componentName := e.base.componentName
    props := e.base.props
    duration := e.base.duration
    mandatory := e.base.mandatory }

/-- The canonical "no more events" view returned by `getEventForSession`:
`\x7b type: 'none', eventId: '', content: '' \x7d`. -/
def noneDisplayEvent : DisplayEvent :=
  { type := EventType.none, eventId := "", content := "" }

/-- JavaScript truthiness of an optional boolean field (`event.mandatory`):
true exactly when the field is present and `true`. -/
def jsTruthy (b : Option Bool) : Bool := b.getD false

/-- JavaScript truthiness of an optional numeric field (`event.duration`,
`this.gameStartTime` in `startGame`): true when present and non-zero. -/
def jsTruthyNum : Option Int → Bool
  | Option.none => false
  | Option.some n => n != 0

/-- The scan loop of `getEventForSession`
(`for (let i = 0; i < cursorIndex && i < this.events.length; i++)`):
collect, in ascending position order, every event before the cursor that is
mandatory and unanswered. -/
def collectUnansweredMandatory :
    List EventConfig → Nat → (String → Bool) → List EventConfig
  | _, 0, _ => []
  | [], _ + 1, _ => []
  | e :: rest, c + 1, hasAnsweredEvent =>
    (if jsTruthy e.mandatory && !hasAnsweredEvent e.id then [e] else []) ++
      collectUnansweredMandatory rest c hasAnsweredEvent

/-! ## Scheduler state (`EventScheduler` in `eventScheduler.ts`) -/

/-- An armed event-trigger timer: the `setTimeout` stored in
`scheduledTimeouts`, holding the event it will trigger and the absolute
instant it fires (`now + delay`). -/
structure EventTimer where
  handle : Nat
  event : EventConfig
  fireAt : Int

/-- An armed auto-hide timer: the anonymous `setTimeout` created inside
`triggerEvent` when the event has a `duration`. The source never stores
these in `scheduledTimeouts`; they carry the id of the event they would
clear and their firing instant. -/
structure AutoHideTimer where
  eventId : String
  fireAt : Int
deriving DecidableEq, Repr

/-- The mutable fields of the `EventScheduler` class together with the
armed timers of the runtime. `scheduledTimeouts` is the class's
`Map<string, NodeJS.Timeout>` from event id to timer *handle*;
`eventTimers` is the runtime's set of armed event-trigger `setTimeout`s
(arming order), each carrying its handle. Overwriting a map entry via
`Map.set` only loses the handle — the overwritten timer stays armed in
`eventTimers`. `nextHandle` supplies fresh handles. -/
structure SchedulerState where
  events : List EventConfig
  gameStartTime : Option Int
  currentEvent : Option DisplayEvent
  scheduledTimeouts : List (String × Nat)
  eventTimers : List EventTimer
  autoHideTimers : List AutoHideTimer
  nextHandle : Nat

/-- The scheduler as constructed: empty timeline, not started, nothing
armed. -/
def initialScheduler : SchedulerState :=
  { events := []
    gameStartTime := Option.none
    currentEvent := Option.none
    scheduledTimeouts := []
    eventTimers := []
    autoHideTimers := []
    nextHandle := 0 }

/-- The `\x7b events: EventConfig[] \x7d` configuration object passed to
`loadEvents`. -/
structure EventsConfig where
  events : List EventConfig

/-- `loadEvents` (`eventScheduler.ts`): stores the configured list verbatim
(`this.events = config.events`); no validation is performed. -/
def loadEvents (st : SchedulerState) (config : EventsConfig) : SchedulerState :=
  { st with events := config.events }

/-- `Map.prototype.set` on an association list keyed by strings: replace the
value in place when the key exists, append otherwise. -/
def mapSet {α : Type} : List (String × α) → String → α → List (String × α)
  | [], k, v => [(k, v)]
  | (k0, v0) :: rest, k, v =>
    if k0 = k then (k, v) :: rest else (k0, v0) :: mapSet rest k v

/-- `Map.prototype.delete` on an association list (keys are unique by
construction of `mapSet`). -/
def mapDelete {α : Type} : List (String × α) → String → List (String × α)
  | [], _ => []
  | (k0, v0) :: rest, k =>
    if k0 = k then rest else (k0, v0) :: mapDelete rest k

/-- `scheduleEvent` (`eventScheduler.ts`): compute
`delay = triggerAt - now`; skip past events (`delay < 0`), otherwise arm a
one-shot `setTimeout` and store its handle in the map under the event id.
If the map already held a handle for this id, that entry is overwritten but
the previously armed timer itself stays armed (its handle is merely
lost). -/
def scheduleEvent (st : SchedulerState) (event : EventConfig) (now : Int) :
    SchedulerState :=
  let delay := event.triggerAt - now
  if delay < 0 then st
  else
    { st with
      eventTimers := st.eventTimers ++ [⟨st.nextHandle, event, now + delay⟩]
      scheduledTimeouts := mapSet st.scheduledTimeouts event.id st.nextHandle
      nextHandle := st.nextHandle + 1 }

/-- `startGame` (`eventScheduler.ts`): no-op if already started; otherwise
record `gameStartTime = now` and schedule every configured event. -/
def startGame (st : SchedulerState) (now : Int) : SchedulerState :=
  if jsTruthyNum st.gameStartTime then st
  else
    (st.events.foldl (fun s e => scheduleEvent s e now)
      { st with gameStartTime := Option.some now })

/-- `triggerEvent` (`eventScheduler.ts`): set `currentEvent` to the fired
event's display form; if the event has a (truthy) `duration`, arm the
anonymous auto-hide `setTimeout` for `duration` ms later. -/
def triggerEvent (st : SchedulerState) (event : EventConfig) (now : Int) :
    SchedulerState :=
  let st1 := { st with currentEvent := Option.some (eventToDisplayEvent event) }
  if jsTruthyNum event.duration then
    { st1 with
      autoHideTimers :=
        st1.autoHideTimers ++ [⟨event.id, now + event.duration.getD 0⟩] }
  else st1

/-- `getCurrentEvent` (`eventScheduler.ts`). -/
def getCurrentEvent (st : SchedulerState) : Option DisplayEvent :=
  st.currentEvent

/-- `getAllEvents` (`eventScheduler.ts`). -/
def getAllEvents (st : SchedulerState) : List EventConfig := st.events

/-- `reset` (`eventScheduler.ts`):
`scheduledTimeouts.forEach(clearTimeout)` cancels exactly the timers whose
handles are stored in the map, then the map is cleared and
`gameStartTime` and `currentEvent` are nulled out. Armed timers whose
handles are *not* in the map — the anonymous auto-hide timers, and any
event-trigger timer orphaned when `Map.set` overwrote its entry — stay
armed. -/
def reset (st : SchedulerState) : SchedulerState :=
  { st with
    eventTimers :=
      st.eventTimers.filter
        (fun tm => !(st.scheduledTimeouts.any (fun kv => kv.2 == tm.handle)))
    scheduledTimeouts := []
    gameStartTime := Option.none
    currentEvent := Option.none }

/-- `isGameActive` (`eventScheduler.ts`): `gameStartTime !== null`. -/
def isGameActive (st : SchedulerState) : Bool := st.gameStartTime.isSome

/-- `getGameStartTime` (`eventScheduler.ts`). -/
def getGameStartTime (st : SchedulerState) : Option Int := st.gameStartTime

/-- `getEventForSession` (`eventScheduler.ts`, session-cursor resolver):
surface the first unanswered mandatory event before the cursor if any,
otherwise the event at the cursor, otherwise the canonical none view. -/
def getEventForSession (st : SchedulerState) (_sessionId : String)
    (cursorIndex : Nat) (hasAnsweredEvent : String → Bool) : DisplayEvent :=
  match collectUnansweredMandatory st.events cursorIndex hasAnsweredEvent with
  | event :: _ => eventToDisplayEvent event
  | [] =>
    if h : cursorIndex < st.events.length then
      eventToDisplayEvent (st.events.get ⟨cursorIndex, h⟩)
    else noneDisplayEvent

/-! ## Virtual time: firing armed timers

The Node.js event loop fires due `setTimeout` callbacks in order of their
firing instant (ties broken in favour of the earlier-armed timer; event
trigger timers are always armed before any auto-hide timer due at the same
instant). `advanceTo st t` runs every callback due at or before virtual
time `t` and reports which timers fired. -/

/-- A record of one fired timer callback. -/
inductive FiredTimer where
  | eventTimer (id : String)
  | autoHide (id : String)
deriving DecidableEq, Repr

/-- The earliest-firing armed event-trigger timer (first in arming order
wins ties), along with its position in the list. -/
def earliestEventTimer : List EventTimer → Option (Nat × EventTimer)
  | [] => Option.none
  | x :: rest =>
    match earliestEventTimer rest with
    | Option.none => Option.some (0, x)
    | Option.some (i, y) =>
      if y.fireAt < x.fireAt then Option.some (i + 1, y) else Option.some (0, x)

/-- The earliest-firing auto-hide timer (first entry wins ties), along with
its position in the list. -/
def earliestAutoHide : List AutoHideTimer → Option (Nat × AutoHideTimer)
  | [] => Option.none
  | x :: rest =>
    match earliestAutoHide rest with
    | Option.none => Option.some (0, x)
    | Option.some (i, y) =>
      if y.fireAt < x.fireAt then Option.some (i + 1, y) else Option.some (0, x)

/-- Run the callback of an event-trigger timer (`scheduleEvent`'s
`setTimeout` body): the timer is consumed, `triggerEvent` runs, and
`scheduledTimeouts.delete(event.id)` removes the map entry for the fired
event's id (whatever handle it currently holds). -/
def fireEventTimer (st : SchedulerState) (idx : Nat) (tm : EventTimer) :
    SchedulerState :=
  let st1 := { st with eventTimers := st.eventTimers.eraseIdx idx }
  let st2 := triggerEvent st1 tm.event tm.fireAt
  { st2 with scheduledTimeouts := mapDelete st2.scheduledTimeouts tm.event.id }

/-- Run the callback of an auto-hide timer (`triggerEvent`'s inner
`setTimeout` body): clear `currentEvent` to the none sentinel carrying the
same id, but only if the slot still shows that event (stale-timer guard
`this.currentEvent?.eventId === event.id`). -/
def fireAutoHide (st : SchedulerState) (idx : Nat) (tm : AutoHideTimer) :
    SchedulerState :=
  let st1 := { st with autoHideTimers := st.autoHideTimers.eraseIdx idx }
  match st1.currentEvent with
  | Option.some ce =>
    if ce.eventId = tm.eventId then
      { st1 with
        currentEvent :=
          Option.some
            { type := EventType.none, eventId := tm.eventId, content := "" } }
    else st1
  | Option.none => st1

/-- Fire the single earliest timer due at or before `t`, if any. -/
def fireStep (st : SchedulerState) (t : Int) :
    Option (SchedulerState × FiredTimer) :=
  match earliestEventTimer st.eventTimers, earliestAutoHide st.autoHideTimers with
  | Option.none, Option.none => Option.none
  | Option.some (i, tm), Option.none =>
    if tm.fireAt ≤ t then
      Option.some (fireEventTimer st i tm, FiredTimer.eventTimer tm.event.id)
    else Option.none
  | Option.none, Option.some (j, a) =>
    if a.fireAt ≤ t then
      Option.some (fireAutoHide st j a, FiredTimer.autoHide a.eventId)
    else Option.none
  | Option.some (i, tm), Option.some (j, a) =>
    if tm.fireAt ≤ t ∧ tm.fireAt ≤ a.fireAt then
      Option.some (fireEventTimer st i tm, FiredTimer.eventTimer tm.event.id)
    else if a.fireAt ≤ t then
      Option.some (fireAutoHide st j a, FiredTimer.autoHide a.eventId)
    else Option.none

/-- Fuel-indexed driver for `advanceTo`: fire due timers one at a time. -/
def advanceLoop : Nat → SchedulerState → Int → SchedulerState × List FiredTimer
  | 0, st, _ => (st, [])
  | fuel + 1, st, t =>
    match fireStep st t with
    | Option.none => (st, [])
    | Option.some (st1, f) =>
      let r := advanceLoop fuel st1 t
      (r.1, f :: r.2)

/-- An upper bound on the number of callbacks that can still run: firing an
event timer removes it and arms at most one auto-hide timer, firing an
auto-hide timer removes it. -/
def timerFuel (st : SchedulerState) : Nat :=
  2 * st.eventTimers.length + st.autoHideTimers.length

/-- Advance virtual time to `t`: run every due timer callback in firing
order, returning the final scheduler state and the list of fired timers. -/
def advanceTo (st : SchedulerState) (t : Int) :
    SchedulerState × List FiredTimer :=
  advanceLoop (timerFuel st) st t

/-! ## Answer evaluator (`answerHandler.ts`) -/

/-- `validateAnswer` (`answerHandler.ts`): validation only applies to
`question` and `multiple_choice` events; absent validation accepts
anything; otherwise normalise the answer (`String(answer).trim()
.toLowerCase()`) and test it against the rule. `regexTest` models the
JavaScript `new RegExp(pattern).test(s)` primitive. -/
def validateAnswer (regexTest : String → String → Bool)
    (answer : AnswerValue) (event : EventConfig) : Bool :=
  if event.type ≠ EventType.question ∧ event.type ≠ EventType.multipleChoice then
    true
  else
    match event.validation with
    | Option.none => true
    | Option.some validation =>
      let answerStr := normalizeJs answer
      match validation with
      | .exact correctAnswers =>
        correctAnswers.any
          (fun correct => jsToLower (jsTrim correct) = answerStr)
      | .regex pattern => regexTest pattern answerStr
      | .custom _ => true

/-- `evaluateAnswer` (`answerHandler.ts`): with validation present return
the semantic key `"correct"`/`"wrong"`; without validation return the
literal answer (JSON-stringified when not a string). The TypeScript return
type is `string \x7c null`, modelled by `Option String`. -/
def evaluateAnswer (regexTest : String → String → Bool)
    (answer : AnswerValue) (event : EventConfig) : Option String :=
  match event.validation with
  | Option.some _ =>
    Option.some
      (if validateAnswer regexTest answer event then "correct" else "wrong")
  | Option.none =>
    Option.some
      (match answer with
       | .str s => s
       | a => jsonStringify a)

/-- `substituteVariables` (`eventScheduler.ts`): for each variable, replace
every occurrence of the placeholder token `\x7bkey\x7d` in the content with
`String(value)`. -/
def substituteVariables (content : String)
    (vars : List (String × AnswerValue)) : String :=
  vars.foldl
    (fun result kv =>
      replaceAll result ("\x7b" ++ kv.1 ++ "\x7d") (jsToString kv.2))
    content

/-- The spread `\x7b ...triggeredEvent, triggerAt: now, content: subst \x7d`
built in `processAnswer` for each branch child. -/
def withImmediateTrigger (e : EventConfig) (now : Int) (content : String) :
    EventConfig :=
  .mk { e.base with triggerAt := now, content := Option.some content } e.onAnswer

/-- The branch list selected by `processAnswer`: the unconditional array, or
the record entry for the trigger key (`|| []`). -/
def selectTriggered (onAnswer : OnAnswerF EventConfig) (triggerKey : String) :
    List EventConfig :=
  match onAnswer with
  | .plain events => events
  | .keyed entries => (entries.lookup triggerKey).getD []

/-- `processAnswer` (`eventScheduler.ts`): look up the answered event;
if it has `triggers?.onAnswer`, evaluate the answer to a trigger key
(bailing out on a falsy key, i.e. null or the empty string), select the
branch children, and schedule each child immediately with `\x7banswer\x7d`
substituted into its content. -/
def processAnswer (regexTest : String → String → Bool) (st : SchedulerState)
    (eventId : String) (answer : AnswerValue) (_sessionId : String)
    (_allAnswersForEvent : List (String × String)) (now : Int) :
    SchedulerState :=
  match st.events.find? (fun e => e.id = eventId) with
  | Option.none => st
  | Option.some event =>
    match event.onAnswer with
    | Option.none => st
    | Option.some onAnswer =>
      match evaluateAnswer regexTest answer event with
      | Option.none => st
      | Option.some triggerKey =>
        if triggerKey = "" then st
        else
          let triggeredEvents := selectTriggered onAnswer triggerKey
          if triggeredEvents.isEmpty then st
          else
            triggeredEvents.foldl
              (fun s te =>
                scheduleEvent s
                  (withImmediateTrigger te now
                    (substituteVariables (te.content.getD "")
                      [("answer", answer)]))
                  now)
              st

/-! ## External store (`database/db.ts`) and the answer route
(`routes/api.ts`, `POST /api/answer`) -/

/-- A row of the `answers` table as written by `recordAnswer`. -/
structure AnswerRecord where
  session_id : String
  event_id : String
  answer_type : String
  answer_value : String
  answered_at : Int
deriving DecidableEq, Repr

/-- The store state the core touches: the append-only `answers` table and
the `session_event_cursors` table (absent row ⇒ cursor 0). -/
structure Store where
  answers : List AnswerRecord
  cursors : List (String × Nat)
deriving DecidableEq, Repr

/-- The empty database. -/
def emptyStore : Store := { answers := [], cursors := [] }

/-- `recordAnswer` (`db.ts`): append a row, JSON-stringifying non-string
values. -/
def recordAnswer (db : Store) (sessionId eventId answerType : String)
    (value : AnswerValue) (now : Int) : Store :=
  let answerValue :=
    match value with
    | .str s => s
    | v => jsonStringify v
  { db with
    answers := db.answers ++ [⟨sessionId, eventId, answerType, answerValue, now⟩] }

/-- `hasSessionAnswered` (`db.ts`): `COUNT(*) > 0` over rows matching the
session and event. -/
def hasSessionAnswered (db : Store) (sessionId eventId : String) : Bool :=
  db.answers.any
    (fun a => a.session_id == sessionId && a.event_id == eventId)

/-- `getAnswersByEvent` (`db.ts`): all rows for an event, in insertion
(`answered_at ASC`) order. -/
def getAnswersByEvent (db : Store) (eventId : String) : List AnswerRecord :=
  db.answers.filter (fun a => a.event_id == eventId)

/-- `getSessionCursor` (`db.ts`): the stored index, defaulting to 0. -/
def getSessionCursor (db : Store) (sessionId : String) : Nat :=
  (db.cursors.lookup sessionId).getD 0

/-- `setSessionCursor` (`db.ts`): SQL upsert of the cursor row. -/
def setSessionCursor (db : Store) (sessionId : String) (eventIndex : Nat) :
    Store :=
  { db with cursors := mapSet db.cursors sessionId eventIndex }

/-- `incrementSessionCursor` (`db.ts`): read the cursor, write it back plus
one. -/
def incrementSessionCursor (db : Store) (sessionId : String) : Store :=
  setSessionCursor db sessionId (getSessionCursor db sessionId + 1)

/-- The request body of `POST /api/answer`; `Option.none` models an absent
field (`undefined`). -/
structure AnswerBody where
  eventId : Option String
  answer : Option AnswerValue

/-- The JSON responses the answer route can produce. -/
inductive ApiResponse where
  | ok (success : Bool) (duplicate : Bool)
  | badRequest (error : String)
deriving DecidableEq, Repr

/-- The `POST /api/answer` handler (`routes/api.ts`): reject a missing (or
JS-falsy, i.e. empty) `eventId` or an undefined `answer` with a 400;
otherwise, unless the (session, event) pair already answered, record the
answer, let the scheduler process branch triggers (its answers-for-event
callback reads the store after the insert), and advance the cursor only
when the event at the session's current cursor is the answered one.
Always respond `\x7b success: true, duplicate \x7d`. -/
def postAnswer (regexTest : String → String → Bool) (db : Store)
    (sched : SchedulerState) (sessionId : String) (body : AnswerBody)
    (now : Int) : Store × SchedulerState × ApiResponse :=
  match body.eventId, body.answer with
  | Option.some eventId, Option.some answer =>
    if eventId = "" then
      (db, sched, ApiResponse.badRequest "eventId and answer are required")
    else
      let duplicate := hasSessionAnswered db sessionId eventId
      if duplicate then (db, sched, ApiResponse.ok true true)
      else
        let answerType :=
          match answer with
          | .str _ => "text"
          | _ => "multiple_choice"
        let db1 := recordAnswer db sessionId eventId answerType answer now
        let allAnswers :=
          (getAnswersByEvent db1 eventId).map
            (fun a => (a.session_id, a.answer_value))
        let sched1 :=
          processAnswer regexTest sched eventId answer sessionId allAnswers now
        let cursorIndex := getSessionCursor db1 sessionId
        let events := getAllEvents sched1
        let db2 :=
          match events.get? cursorIndex with
          | Option.some e =>
            if e.id = eventId then incrementSessionCursor db1 sessionId
            else db1
          | Option.none => db1
        (db2, sched1, ApiResponse.ok true false)
  | _, _ => (db, sched, ApiResponse.badRequest "eventId and answer are required")

/-! ## Auxiliary predicates and concrete fixtures -/

/-- Position `p` of the timeline blocks a participant: it holds an event
that is mandatory (JS-truthy `mandatory`) and unanswered. -/
def blockedAt (events : List EventConfig) (hasAnsweredEvent : String → Bool)
    (p : Nat) : Bool :=
  match events.get? p with
  | Option.some e => jsTruthy e.mandatory && !hasAnsweredEvent e.id
  | Option.none => false

/-- The validation rules as the specification words them (ExactMatch: the
normalised answer equals some trimmed-and-lowercased entry; RegexMatch: the
pattern matches the normalised answer; Custom: always satisfied), stated on
an already-normalised answer, for comparison with the code's
`validateAnswer`. -/
def specRuleSatisfied (regexTest : String → String → Bool) :
    ValidationConfig → String → Bool
  | .exact correctAnswers, normalized =>
    correctAnswers.any (fun c => jsToLower (jsTrim c) = normalized)
  | .regex pattern, normalized => regexTest pattern normalized
  | .custom _, _ => true

/-- A degenerate regex-test instantiation for concrete witnesses (none of
the witness events uses regex validation). -/
def noRegex : String → String → Bool := fun _ _ => false

/-- Fixture: a non-mandatory text event, position 0 of the scenario-A
timeline. -/
def evWelcome : EventConfig :=
  .mk { id := "welcome", triggerAt := 0, type := EventType.text,
        content := Option.some "hi" } Option.none

/-- Fixture: a mandatory question event, position 1 of the scenario-A
timeline. -/
def evQ1 : EventConfig :=
  .mk { id := "q1", triggerAt := 0, type := EventType.question,
        content := Option.some "q?", mandatory := Option.some true }
    Option.none

/-- Fixture: a non-mandatory text event, position 2 of the scenario-A
timeline. -/
def evAfter : EventConfig :=
  .mk { id := "after", triggerAt := 0, type := EventType.text,
        content := Option.some "done" } Option.none

/-- Fixture: the scenario-A scheduler, timeline `[welcome, q1, after]`. -/
def stScenarioA : SchedulerState :=
  loadEvents initialScheduler ⟨[evWelcome, evQ1, evAfter]⟩

/-- Fixture: the answered-history of a participant who answered only
`welcome`. -/
def answeredWelcome : String → Bool := fun i => i == "welcome"

/-- Fixture: a timed event with an auto-hide duration (fires at 10, hides
5 ms later). -/
def evTimed : EventConfig :=
  .mk { id := "e1", triggerAt := 10, type := EventType.text,
        content := Option.some "boo", duration := Option.some 5 }
    Option.none

/-- Fixture: the scheduler after loading `[evTimed]`, starting the game at
time 0 and advancing to time 10 — the event has fired and its auto-hide
timer (due at 15) is armed. -/
def stFired : SchedulerState :=
  (advanceTo (startGame (loadEvents initialScheduler ⟨[evTimed]⟩) 0) 10).1

/-- Fixture: a branch child whose content carries the answer placeholder. -/
def evChild : EventConfig :=
  .mk { id := "c1", triggerAt := 0, type := EventType.text,
        content := Option.some "Nice, \x7banswer\x7d!" } Option.none

/-- Fixture: an event with an unconditional branch list `[evChild]` and no
validation. -/
def evBranching : EventConfig :=
  .mk { id := "b1", triggerAt := 0, type := EventType.text,
        content := Option.some "?" }
    (Option.some (.plain [evChild]))

/-- Fixture: an event with ExactMatch validation `["5"]` and a branch table
keyed on the `"correct"` trigger key (scenario D). -/
def evQuiz : EventConfig :=
  .mk { id := "q5", triggerAt := 0, type := EventType.question,
        content := Option.some "2+3?",
        validation := Option.some (.exact ["5"]) }
    (Option.some (.keyed [("correct", [evChild])]))

/-- Fixture: scheduler with the unconditional-branch timeline. -/
def stBranching : SchedulerState :=
  loadEvents initialScheduler ⟨[evBranching]⟩

/-- Fixture: scheduler with the validated-branch timeline. -/
def stQuiz : SchedulerState := loadEvents initialScheduler ⟨[evQuiz]⟩

/-- Fixture: a question event with ExactMatch validation (scenario C). -/
def evExact5 : EventConfig :=
  .mk { id := "q", triggerAt := 0, type := EventType.question,
        content := Option.some "?",
        validation := Option.some (.exact ["5"]) } Option.none

/-- Fixture: two distinct events sharing the id `"dup"`. -/
def evDupA : EventConfig :=
  .mk { id := "dup", triggerAt := 0, type := EventType.text,
        content := Option.some "first" } Option.none

/-- Fixture: second event with the duplicated id. -/
def evDupB : EventConfig :=
  .mk { id := "dup", triggerAt := 0, type := EventType.text,
        content := Option.some "second" } Option.none

/-- Fixture: first of two timed events sharing the id `"dup"` (fires at
10). -/
def evDupTimerA : EventConfig :=
  .mk { id := "dup", triggerAt := 10, type := EventType.text,
        content := Option.some "first-timer" } Option.none

/-- Fixture: second timed event with the duplicated id (fires at 12);
scheduling it overwrites the map entry of the first and orphans that
timer. -/
def evDupTimerB : EventConfig :=
  .mk { id := "dup", triggerAt := 12, type := EventType.text,
        content := Option.some "second-timer" } Option.none

/-- Fixture: the scheduler after loading the duplicate-id timeline and
starting the game at time 0 — two event timers are armed under the one id
`"dup"`, and only the second one's handle is still in the map. -/
def stOrphan : SchedulerState :=
  startGame (loadEvents initialScheduler ⟨[evDupTimerA, evDupTimerB]⟩) 0

/-! ## Theorems -/

/-- Shifting the blocking predicate across a cons. -/
theorem blockedAt_cons_succ (e : EventConfig) (rest : List EventConfig)
    (ans : String → Bool) (p : Nat) :
    blockedAt (e :: rest) ans (p + 1) = blockedAt rest ans p := rfl

/-- The blocking predicate at the head of the timeline. -/
theorem blockedAt_cons_zero (e : EventConfig) (rest : List EventConfig)
    (ans : String → Bool) :
    blockedAt (e :: rest) ans 0 = (jsTruthy e.mandatory && !ans e.id) := rfl

/-- The mandatory scan is empty when no position before the cursor (and
inside the timeline) is blocking. -/
theorem collect_eq_nil (events : List EventConfig) (c : Nat)
    (ans : String → Bool)
    (h : ∀ p, p < c → p < events.length → blockedAt events ans p = false) :
    collectUnansweredMandatory events c ans = [] := by
  induction events generalizing c with
  | nil => cases c <;> rfl
  | cons e tl ih =>
    cases c with
    | zero => rfl
    | succ c =>
      have h0 : blockedAt (e :: tl) ans 0 = false :=
        h 0 (Nat.succ_pos c) (by simp)
      rw [blockedAt_cons_zero] at h0
      simp only [collectUnansweredMandatory, h0, if_neg, Bool.false_eq_true,
        not_false_eq_true, List.nil_append]
      exact ih c (fun p hp hplen => by
        have hh := h (p + 1) (Nat.succ_lt_succ hp)
          (by simpa using Nat.succ_lt_succ hplen)
        rwa [blockedAt_cons_succ] at hh)

/-- When `p` is the least blocking position, the mandatory scan starts with
the event at `p`. -/
theorem collect_head (events : List EventConfig) (c : Nat)
    (ans : String → Bool) (p : Nat) (hp : p < c) (hplen : p < events.length)
    (hb : blockedAt events ans p = true)
    (hmin : ∀ q, q < p → blockedAt events ans q = false) :
    ∃ rest, collectUnansweredMandatory events c ans =
      events.get ⟨p, hplen⟩ :: rest := by
  induction events generalizing c p with
  | nil => exact absurd hplen (by simp)
  | cons e tl ih =>
    cases c with
    | zero => exact absurd hp (Nat.not_lt_zero p)
    | succ c =>
      cases p with
      | zero =>
        have hz : (jsTruthy e.mandatory && !ans e.id) = true := by
          rwa [blockedAt_cons_zero] at hb
        exact ⟨collectUnansweredMandatory tl c ans, by
          simp only [collectUnansweredMandatory, hz, if_pos, List.cons_append,
            List.nil_append, List.get]⟩
      | succ p =>
        have h0 : blockedAt (e :: tl) ans 0 = false := hmin 0 (Nat.succ_pos p)
        rw [blockedAt_cons_zero] at h0
        have hplen' : p < tl.length := by simpa using Nat.lt_of_succ_lt_succ hplen
        obtain ⟨rest, hr⟩ := ih c p (Nat.lt_of_succ_lt_succ hp) hplen'
          (by rwa [blockedAt_cons_succ] at hb)
          (fun q hq => by
            have hh := hmin (q + 1) (Nat.succ_lt_succ hq)
            rwa [blockedAt_cons_succ] at hh)
        exact ⟨rest, by
          simp only [collectUnansweredMandatory, h0, if_neg, Bool.false_eq_true,
            not_false_eq_true, List.nil_append]
          exact hr⟩

/-- Every event collected by the mandatory scan comes from the timeline. -/
theorem collect_mem (events : List EventConfig) (c : Nat)
    (ans : String → Bool) :
    ∀ x ∈ collectUnansweredMandatory events c ans, x ∈ events := by
  induction events generalizing c with
  | nil => intro x hx; cases c <;> simp [collectUnansweredMandatory] at hx
  | cons e tl ih =>
    intro x hx
    cases c with
    | zero => simp [collectUnansweredMandatory] at hx
    | succ c =>
      simp only [collectUnansweredMandatory, List.mem_append] at hx
      rcases hx with hx | hx
      · by_cases hc : (jsTruthy e.mandatory && !ans e.id) = true
        · simp [hc] at hx; simp [hx]
        · simp [hc] at hx
      · exact List.mem_cons_of_mem e (ih c x hx)



/-- Claim C1: for every timeline, cursor `c ≥ 0` and answered-history
predicate, if some position `p` with `p < c` and `p <` timeline length
holds an event with `mandatory = true` whose id the predicate reports
unanswered, then `getEventForSession` returns the event at the smallest
such `p` converted to a view, regardless of `c`; otherwise it returns the
event at `c` when `c` is a valid index into the timeline, and the
canonical none view (empty id, empty content) when it is not. -/
theorem getEventForSession_resolver_spec (st : SchedulerState) (sid : String)
    (c : Nat) (ans : String → Bool) :
    (∀ p (hp : p < c) (hplen : p < st.events.length),
        blockedAt st.events ans p = true →
        (∀ q, q < p → blockedAt st.events ans q = false) →
        getEventForSession st sid c ans =
          eventToDisplayEvent (st.events.get ⟨p, hplen⟩)) ∧
    ((∀ p, p < c → p < st.events.length → blockedAt st.events ans p = false) →
      (∀ hc : c < st.events.length,
          getEventForSession st sid c ans =
            eventToDisplayEvent (st.events.get ⟨c, hc⟩)) ∧
      (st.events.length ≤ c → getEventForSession st sid c ans = noneDisplayEvent)) := by
  constructor
  · intro p hp hplen hb hmin
    obtain ⟨rest, hr⟩ := collect_head st.events c ans p hp hplen hb hmin
    simp only [getEventForSession, hr]
  · intro hnone
    have hnil : collectUnansweredMandatory st.events c ans = [] :=
      collect_eq_nil st.events c ans hnone
    constructor
    · intro hc
      simp only [getEventForSession, hnil, hc, dif_pos]
    · intro hge
      have : ¬ c < st.events.length := Nat.not_lt.mpr hge
      simp only [getEventForSession, hnil, this, dif_neg, not_false_eq_true]

/-- Witness for C1 (scenario A): timeline `[welcome, q1 (mandatory),
after]`, cursor 2, only `welcome` answered — the resolver returns `q1`,
the least unanswered mandatory position. -/
theorem getEventForSession_resolver_spec_witness :
    getEventForSession stScenarioA "s" 2 answeredWelcome =
      eventToDisplayEvent evQ1 :=
  (getEventForSession_resolver_spec stScenarioA "s" 2 answeredWelcome).1 1
    (by decide) (by decide) (by decide)
    (fun q hq => by
      interval_cases q
      decide)

/-- Claim C10: the resolver is total for every cursor value: for every
cursor `c ≥ 0` — including cursors beyond the timeline length — it
performs no out-of-range access and returns either the view of an event of
the timeline or the canonical none view, never an error. -/
theorem getEventForSession_total (st : SchedulerState) (sid : String)
    (c : Nat) (ans : String → Bool) :
    (∃ e, e ∈ st.events ∧
        getEventForSession st sid c ans = eventToDisplayEvent e) ∨
    getEventForSession st sid c ans = noneDisplayEvent := by
  rcases hcol : collectUnansweredMandatory st.events c ans with _ | ⟨e, rest⟩
  · by_cases hc : c < st.events.length
    · exact Or.inl ⟨st.events.get ⟨c, hc⟩, List.get_mem _ _ _,
        by simp only [getEventForSession, hcol, hc, dif_pos]⟩
    · exact Or.inr (by simp only [getEventForSession, hcol, hc, dif_neg,
        not_false_eq_true])
  · exact Or.inl ⟨e, collect_mem st.events c ans e (hcol ▸ List.mem_cons_self e rest),
      by simp only [getEventForSession, hcol]⟩



/-- Lookup after a `Map.set`-style upsert. -/
theorem lookup_mapSet {α : Type} (m : List (String × α)) (k : String) (v : α)
    (k' : String) :
    (mapSet m k v).lookup k' =
      if k' = k then Option.some v else m.lookup k' := by
  induction m with
  | nil =>
    by_cases h : k' = k
    · have hb : (k' == k) = true := beq_iff_eq.mpr h
      simp [mapSet, List.lookup, hb, h]
    · have hb : (k' == k) = false := beq_eq_false_iff_ne.mpr h
      simp [mapSet, List.lookup, hb, h]
  | cons kv rest ih =>
    obtain ⟨k0, v0⟩ := kv
    by_cases hk : k0 = k
    · subst hk
      by_cases h : k' = k0
      · have hb : (k' == k0) = true := beq_iff_eq.mpr h
        simp [mapSet, List.lookup, hb, h]
      · have hb : (k' == k0) = false := beq_eq_false_iff_ne.mpr h
        simp [mapSet, List.lookup, hb, h]
    · by_cases h : k' = k0
      · subst h
        have hb : (k' == k') = true := beq_iff_eq.mpr rfl
        have hne : ¬ k' = k := fun hh => hk (hh ▸ rfl)
        simp [mapSet, hk, List.lookup, hb, hne]
      · have hb : (k' == k0) = false := beq_eq_false_iff_ne.mpr h
        simp [mapSet, hk, List.lookup, hb, ih]

/-- Reading a cursor back after writing it. -/
theorem getSessionCursor_setSessionCursor (db : Store) (sid : String)
    (v : Nat) :
    getSessionCursor (setSessionCursor db sid v) sid = v := by
  simp [getSessionCursor, setSessionCursor, lookup_mapSet]

/-- `incrementSessionCursor` adds exactly one to the stored cursor. -/
theorem getSessionCursor_incrementSessionCursor (db : Store) (sid : String) :
    getSessionCursor (incrementSessionCursor db sid) sid =
      getSessionCursor db sid + 1 := by
  simp [incrementSessionCursor, getSessionCursor_setSessionCursor]

/-- Recording an answer does not touch the cursor table. -/
theorem getSessionCursor_recordAnswer (db : Store) (s e t : String)
    (v : AnswerValue) (n : Int) (s2 : String) :
    getSessionCursor (recordAnswer db s e t v n) s2 = getSessionCursor db s2 :=
  rfl

/-- Scheduling a timer never changes the loaded timeline. -/
theorem scheduleEvent_events (st : SchedulerState) (e : EventConfig)
    (now : Int) : (scheduleEvent st e now).events = st.events := by
  by_cases h : e.triggerAt - now < 0 <;> simp [scheduleEvent, h]

/-- A fold of timeline-preserving steps preserves the timeline. -/
theorem foldl_events_invariant (g : SchedulerState → EventConfig → SchedulerState)
    (hg : ∀ s te, (g s te).events = s.events) :
    ∀ (l : List EventConfig) (st : SchedulerState),
      (l.foldl g st).events = st.events := by
  intro l
  induction l with
  | nil => intro st; rfl
  | cons te tl ih => intro st; rw [List.foldl_cons, ih, hg]

/-- `processAnswer` never changes the loaded timeline. -/
theorem processAnswer_events (rt : String → String → Bool)
    (st : SchedulerState) (eid : String) (a : AnswerValue) (sid : String)
    (aae : List (String × String)) (now : Int) :
    (processAnswer rt st eid a sid aae now).events = st.events := by
  unfold processAnswer
  split
  · rfl
  · split
    · rfl
    · split
      · rfl
      · split
        · rfl
        · dsimp only
          split
          · rfl
          · exact foldl_events_invariant _
              (fun s te => scheduleEvent_events s _ now) _ st

/-- In a timeline with pairwise-distinct ids, equal ids force equal
positions. -/
theorem nodup_id_index_eq :
    ∀ (l : List EventConfig) (i j : Nat) (hi : i < l.length)
      (hj : j < l.length),
      (l.map EventConfig.id).Nodup →
      (l.get ⟨i, hi⟩).id = (l.get ⟨j, hj⟩).id → i = j := by
  intro l
  induction l with
  | nil => intro i j hi; simp at hi
  | cons e tl ih =>
    intro i j hi hj hnd heq
    simp only [List.map_cons, List.nodup_cons] at hnd
    obtain ⟨hnotin, hnd'⟩ := hnd
    cases i with
    | zero =>
      cases j with
      | zero => rfl
      | succ j =>
        exfalso
        apply hnotin
        have : (tl.get ⟨j, Nat.lt_of_succ_lt_succ hj⟩).id ∈ tl.map EventConfig.id :=
          List.mem_map_of_mem EventConfig.id (List.get_mem tl j _)
        exact heq ▸ this
    | succ i =>
      cases j with
      | zero =>
        exfalso
        apply hnotin
        have : (tl.get ⟨i, Nat.lt_of_succ_lt_succ hi⟩).id ∈ tl.map EventConfig.id :=
          List.mem_map_of_mem EventConfig.id (List.get_mem tl i _)
        exact heq ▸ this
      | succ j =>
        have := ih i j (Nat.lt_of_succ_lt_succ hi) (Nat.lt_of_succ_lt_succ hj)
          hnd' heq
        omega



/-- After `recordAnswer`, the recorded pair is reported answered. -/
theorem hasSessionAnswered_recordAnswer_self (db : Store) (sid eid t : String)
    (v : AnswerValue) (n : Int) :
    hasSessionAnswered (recordAnswer db sid eid t v n) sid eid = true := by
  simp [hasSessionAnswered, recordAnswer]

/-- Cursor mutation does not affect the answers table. -/
theorem hasSessionAnswered_incrementSessionCursor (db : Store)
    (s a b : String) :
    hasSessionAnswered (incrementSessionCursor db s) a b =
      hasSessionAnswered db a b := rfl

/-- Cursor mutation leaves the answers table unchanged. -/
theorem answers_incrementSessionCursor (db : Store) (s : String) :
    (incrementSessionCursor db s).answers = db.answers := rfl

/-- Recording an answer leaves the cursor table unchanged. -/
theorem cursors_recordAnswer (db : Store) (s e t : String) (v : AnswerValue)
    (n : Int) : (recordAnswer db s e t v n).cursors = db.cursors := rfl

/-- Claim C2: for a non-duplicate submission, under the documented
timeline invariant that event ids are unique, the participant's cursor is
incremented by exactly one if and only if the timeline position `p` of the
answered event equals the cursor value read before the increment; in every
other case — including a mandatory catch-up at a position below the
cursor — the cursor is left unchanged. -/
theorem cursor_advance_iff (rt : String → String → Bool) (db : Store)
    (sched : SchedulerState) (sid eid : String) (ans : AnswerValue)
    (now : Int) (p : Nat)
    (hnodup : (sched.events.map EventConfig.id).Nodup)
    (hplen : p < sched.events.length)
    (hpid : (sched.events.get ⟨p, hplen⟩).id = eid)
    (heid : eid ≠ "")
    (hdup : hasSessionAnswered db sid eid = false) :
    (getSessionCursor
        (postAnswer rt db sched sid ⟨Option.some eid, Option.some ans⟩ now).1
        sid = getSessionCursor db sid + 1 ↔ p = getSessionCursor db sid) ∧
    (p ≠ getSessionCursor db sid →
      getSessionCursor
        (postAnswer rt db sched sid ⟨Option.some eid, Option.some ans⟩ now).1
        sid = getSessionCursor db sid) := by
  simp only [postAnswer, if_neg heid, hdup, Bool.false_eq_true, if_false,
    getAllEvents, processAnswer_events, getSessionCursor_recordAnswer]
  by_cases hc : getSessionCursor db sid < sched.events.length
  · rw [List.get?_eq_get hc]
    by_cases hid : (sched.events.get ⟨getSessionCursor db sid, hc⟩).id = eid
    · simp only [if_pos hid]
      have hpc : p = getSessionCursor db sid :=
        nodup_id_index_eq sched.events p (getSessionCursor db sid) hplen hc
          hnodup (hpid.trans hid.symm)
      constructor
      · rw [getSessionCursor_incrementSessionCursor,
          getSessionCursor_recordAnswer]
        exact iff_of_true rfl hpc
      · intro hne; exact absurd hpc hne
    · simp only [if_neg hid]
      have hpne : p ≠ getSessionCursor db sid := fun h => hid (by
        subst h; exact hpid)
      rw [getSessionCursor_recordAnswer]
      exact ⟨iff_of_false (by omega) hpne, fun _ => rfl⟩
  · rw [List.get?_eq_none.mpr (Nat.le_of_not_lt hc)]
    have hpne : p ≠ getSessionCursor db sid := by omega
    rw [getSessionCursor_recordAnswer]
    exact ⟨iff_of_false (by omega) hpne, fun _ => rfl⟩

/-- After any well-formed submission, the (participant, event) pair is
reported answered. -/
theorem postAnswer_answered (rt : String → String → Bool) (db : Store)
    (sched : SchedulerState) (sid eid : String) (ans : AnswerValue)
    (now : Int) (heid : eid ≠ "") :
    hasSessionAnswered
      (postAnswer rt db sched sid ⟨Option.some eid, Option.some ans⟩ now).1
      sid eid = true := by
  simp only [postAnswer, if_neg heid]
  by_cases hdup : hasSessionAnswered db sid eid = true
  · simp only [hdup, if_true]
  · have hdup' : hasSessionAnswered db sid eid = false := by
      simpa using hdup
    simp only [hdup', Bool.false_eq_true, if_false]
    split
    · split
      · rw [hasSessionAnswered_incrementSessionCursor]
        exact hasSessionAnswered_recordAnswer_self db sid eid _ ans now
      · exact hasSessionAnswered_recordAnswer_self db sid eid _ ans now
    · exact hasSessionAnswered_recordAnswer_self db sid eid _ ans now

/-- Claim C3: answer submission is idempotent per (participant, event)
pair: whatever the first call did, a second call for the same pair (with
any answer value) reports `duplicate = true` and `success = true` and
returns the store and the scheduler state exactly as the first call left
them — no second record, no branch injection, no cursor mutation. -/
theorem submitAnswer_idempotent (rt : String → String → Bool) (db : Store)
    (sched : SchedulerState) (sid eid : String) (ans ans2 : AnswerValue)
    (now1 now2 : Int) (heid : eid ≠ "") :
    postAnswer rt
        (postAnswer rt db sched sid ⟨Option.some eid, Option.some ans⟩ now1).1
        (postAnswer rt db sched sid ⟨Option.some eid, Option.some ans⟩ now1).2.1
        sid ⟨Option.some eid, Option.some ans2⟩ now2 =
      ((postAnswer rt db sched sid ⟨Option.some eid, Option.some ans⟩ now1).1,
        (postAnswer rt db sched sid ⟨Option.some eid, Option.some ans⟩ now1).2.1,
        ApiResponse.ok true true) := by
  have hans := postAnswer_answered rt db sched sid eid ans now1 heid
  generalize hA :
    postAnswer rt db sched sid ⟨Option.some eid, Option.some ans⟩ now1 = r1
  rw [hA] at hans
  simp only [postAnswer, if_neg heid, hans, if_true]



/-- The row appended by `recordAnswer`. -/
theorem answers_recordAnswer (db : Store) (s e t : String) (v : AnswerValue)
    (n : Int) :
    (recordAnswer db s e t v n).answers =
      db.answers ++ [⟨s, e, t,
        (match v with | .str s2 => s2 | v2 => jsonStringify v2), n⟩] := rfl

/-- Claim C9: every well-formed submission (eventId present and non-empty,
answer defined) is reported with `success = true` — the only rejecting
outcome of the route is the missing-field 400, which also covers an
empty-string id (JS-falsy) — and this holds even when the eventId does not
occur in the timeline: for a first-time pair the raw answer (strings
verbatim, other values JSON-stringified) is still appended to the store,
and the pair is thereafter reported as answered. -/
theorem wellformed_submission_succeeds (rt : String → String → Bool)
    (db : Store) (sched : SchedulerState) (sid eid : String)
    (ans : AnswerValue) (now : Int) (heid : eid ≠ "") :
    ((postAnswer rt db sched sid ⟨Option.some eid, Option.some ans⟩ now).2.2 =
        ApiResponse.ok true (hasSessionAnswered db sid eid)) ∧
    hasSessionAnswered
      (postAnswer rt db sched sid ⟨Option.some eid, Option.some ans⟩ now).1
      sid eid = true ∧
    (hasSessionAnswered db sid eid = false →
      (postAnswer rt db sched sid ⟨Option.some eid, Option.some ans⟩ now).1.answers =
        db.answers ++ [⟨sid, eid,
          (match ans with | .str _ => "text" | _ => "multiple_choice"),
          (match ans with | .str s => s | v => jsonStringify v), now⟩]) := by
  refine ⟨?_, postAnswer_answered rt db sched sid eid ans now heid, ?_⟩
  · simp only [postAnswer, if_neg heid]
    by_cases hdup : hasSessionAnswered db sid eid = true
    · simp [hdup]
    · have hdup' : hasSessionAnswered db sid eid = false := by simpa using hdup
      simp [hdup']
  · intro hdup'
    simp only [postAnswer, if_neg heid, hdup', Bool.false_eq_true, if_false]
    split
    · split
      · rw [answers_incrementSessionCursor]
        rfl
      · rfl
    · rfl

/-- Claim C7, amended: a submission whose eventId does not occur in the
loaded timeline is not rejected: the route reports `success = true` (with
the duplicate flag), the scheduler state is completely unchanged (no
branch processing finds the event), and no cursor is moved — but for a
first-time pair the answer is recorded (see the C9 theorem). -/
theorem unknown_event_submission (rt : String → String → Bool) (db : Store)
    (sched : SchedulerState) (sid eid : String) (ans : AnswerValue)
    (now : Int) (heid : eid ≠ "")
    (hunknown : ∀ e ∈ sched.events, e.id ≠ eid) :
    ((postAnswer rt db sched sid ⟨Option.some eid, Option.some ans⟩ now).2.1 =
        sched) ∧
    ((postAnswer rt db sched sid ⟨Option.some eid, Option.some ans⟩ now).2.2 =
        ApiResponse.ok true (hasSessionAnswered db sid eid)) ∧
    ((postAnswer rt db sched sid ⟨Option.some eid, Option.some ans⟩ now).1.cursors =
        db.cursors) := by
  have hfind : ∀ aae2 : List EventConfig,
      sched.events.find? (fun e => e.id = eid) = Option.none :=
    fun _ => List.find?_eq_none.mpr (fun e he => by simp [hunknown e he])
  have hproc : ∀ (a : AnswerValue) (aae : List (String × String)) (n : Int),
      processAnswer rt sched eid a sid aae n = sched := by
    intro a aae n
    simp only [processAnswer, hfind []]
  by_cases hdup : hasSessionAnswered db sid eid = true
  · simp [postAnswer, if_neg heid, hdup]
  · have hdup' : hasSessionAnswered db sid eid = false := by simpa using hdup
    simp only [postAnswer, if_neg heid, hdup', Bool.false_eq_true, if_false,
      hproc, getAllEvents]
    refine ⟨trivial, trivial, ?_⟩
    split
    · rename_i e hg
      rw [if_neg (hunknown e (List.get?_mem hg))]
      exact cursors_recordAnswer db sid eid _ ans now
    · exact cursors_recordAnswer db sid eid _ ans now

/-- Witness for C2: answering the event at position 0 with cursor 0
advances the cursor to 1. -/
theorem cursor_advance_iff_witness :
    getSessionCursor (postAnswer noRegex emptyStore stScenarioA "s1"
        ⟨Option.some "welcome", Option.some (.str "hi")⟩ 0).1 "s1" =
      getSessionCursor emptyStore "s1" + 1 :=
  ((cursor_advance_iff noRegex emptyStore stScenarioA "s1" "welcome"
      (.str "hi") 0 0 (by decide) (by decide) (by rfl) (by decide)
      (by rfl)).1).mpr (by rfl)

/-- Witness for C3: a concrete duplicate resubmission returns the state of
the first call and `duplicate = true`. -/
theorem submitAnswer_idempotent_witness :
    postAnswer noRegex
        (postAnswer noRegex emptyStore stScenarioA "s1"
          ⟨Option.some "welcome", Option.some (.str "hi")⟩ 1).1
        (postAnswer noRegex emptyStore stScenarioA "s1"
          ⟨Option.some "welcome", Option.some (.str "hi")⟩ 1).2.1
        "s1" ⟨Option.some "welcome", Option.some (.str "bye")⟩ 2 =
      ((postAnswer noRegex emptyStore stScenarioA "s1"
          ⟨Option.some "welcome", Option.some (.str "hi")⟩ 1).1,
        (postAnswer noRegex emptyStore stScenarioA "s1"
          ⟨Option.some "welcome", Option.some (.str "hi")⟩ 1).2.1,
        ApiResponse.ok true true) :=
  submitAnswer_idempotent noRegex emptyStore stScenarioA "s1" "welcome"
    (.str "hi") (.str "bye") 1 2 (by decide)

/-- Witness for C9: a submission for an id absent from the timeline is
reported successful. -/
theorem wellformed_submission_succeeds_witness :
    (postAnswer noRegex emptyStore stScenarioA "s1"
        ⟨Option.some "ghost", Option.some (.str "x")⟩ 0).2.2 =
      ApiResponse.ok true (hasSessionAnswered emptyStore "s1" "ghost") :=
  (wellformed_submission_succeeds noRegex emptyStore stScenarioA "s1" "ghost"
    (.str "x") 0 (by decide)).1

/-- Witness for the amended C7: an unknown-event submission leaves the
scheduler untouched. -/
theorem unknown_event_submission_witness :
    (postAnswer noRegex emptyStore stScenarioA "s1"
        ⟨Option.some "ghost", Option.some (.str "x")⟩ 0).2.1 = stScenarioA :=
  (unknown_event_submission noRegex emptyStore stScenarioA "s1" "ghost"
    (.str "x") 0 (by decide) (by decide)).1

/-- Counterexample to C7 as stated: submitting for eventId `"ghost"`,
absent from the loaded timeline, does not fail with a NotFound error — the
route responds `success = true, duplicate = false` and the answer is
recorded in the store. -/
theorem unknown_event_not_rejected :
    (postAnswer noRegex emptyStore stScenarioA "s1"
        ⟨Option.some "ghost", Option.some (.str "x")⟩ 0).2.2 =
      ApiResponse.ok true false ∧
    hasSessionAnswered (postAnswer noRegex emptyStore stScenarioA "s1"
        ⟨Option.some "ghost", Option.some (.str "x")⟩ 0).1 "s1" "ghost" =
      true := ⟨rfl, rfl⟩



/-- The branch-injection copy keeps the child id. -/
theorem withImmediateTrigger_id (e : EventConfig) (now : Int) (c : String) :
    (withImmediateTrigger e now c).id = e.id := rfl

/-- The branch-injection copy re-stamps `triggerAt` to now. -/
theorem withImmediateTrigger_triggerAt (e : EventConfig) (now : Int)
    (c : String) : (withImmediateTrigger e now c).triggerAt = now := rfl

/-- Scheduling an event whose trigger instant is now arms its timer with
zero delay: a fresh timer firing at `now` is appended and the map entry
for the event id is set to its handle. -/
theorem scheduleEvent_immediate (st : SchedulerState) (e : EventConfig)
    (now : Int) (h : e.triggerAt = now) :
    scheduleEvent st e now =
      { st with
        eventTimers := st.eventTimers ++ [⟨st.nextHandle, e, now⟩]
        scheduledTimeouts := mapSet st.scheduledTimeouts e.id st.nextHandle
        nextHandle := st.nextHandle + 1 } := by
  simp [scheduleEvent, h]

/-- Folding the injection step over children leaves map entries of
unrelated ids untouched. -/
theorem inject_foldl_lookup_skip (now : Int) (f : EventConfig → EventConfig)
    (hid : ∀ te, (f te).id = te.id) (hta : ∀ te, (f te).triggerAt = now) :
    ∀ (lst : List EventConfig) (st : SchedulerState) (k : String),
      k ∉ lst.map EventConfig.id →
      ((lst.foldl (fun s x => scheduleEvent s (f x) now) st).scheduledTimeouts).lookup k =
        st.scheduledTimeouts.lookup k := by
  intro lst
  induction lst with
  | nil => intro st k _; rfl
  | cons x tl ih =>
    intro st k hk
    simp only [List.map_cons, List.mem_cons, not_or] at hk
    obtain ⟨hk1, hk2⟩ := hk
    rw [List.foldl_cons, ih _ k hk2, scheduleEvent_immediate st (f x) now (hta x)]
    simp only [hid x]
    rw [lookup_mapSet]
    exact if_neg hk1

/-- Folding the injection step over children never disarms a timer that
was already armed. -/
theorem inject_foldl_timer_mem (now : Int) (f : EventConfig → EventConfig)
    (hta : ∀ te, (f te).triggerAt = now) :
    ∀ (lst : List EventConfig) (st : SchedulerState) (tm : EventTimer),
      tm ∈ st.eventTimers →
      tm ∈ (lst.foldl (fun s x => scheduleEvent s (f x) now) st).eventTimers := by
  intro lst
  induction lst with
  | nil => intro st tm htm; exact htm
  | cons x tl ih =>
    intro st tm htm
    rw [List.foldl_cons]
    apply ih
    rw [scheduleEvent_immediate st (f x) now (hta x)]
    exact List.mem_append_left _ htm

/-- Folding the injection step over children with distinct ids arms, for
each child, a timer firing at `now` whose handle the map holds under the
child's id. -/
theorem inject_foldl_lookup (now : Int) (f : EventConfig → EventConfig)
    (hid : ∀ te, (f te).id = te.id) (hta : ∀ te, (f te).triggerAt = now) :
    ∀ (lst : List EventConfig) (st : SchedulerState),
      (lst.map EventConfig.id).Nodup →
      ∀ te ∈ lst,
        ∃ h,
          ((lst.foldl (fun s x => scheduleEvent s (f x) now) st).scheduledTimeouts).lookup te.id =
            Option.some h ∧
          (⟨h, f te, now⟩ : EventTimer) ∈
            (lst.foldl (fun s x => scheduleEvent s (f x) now) st).eventTimers := by
  intro lst
  induction lst with
  | nil => intro st _ te hte; simp at hte
  | cons x tl ih =>
    intro st hnd te hte
    simp only [List.map_cons, List.nodup_cons] at hnd
    obtain ⟨hnotin, hnd'⟩ := hnd
    rw [List.foldl_cons]
    rcases List.mem_cons.mp hte with hx | htl
    · subst hx
      refine ⟨st.nextHandle, ?_, ?_⟩
      · rw [inject_foldl_lookup_skip now f hid hta tl _ te.id hnotin,
          scheduleEvent_immediate st (f te) now (hta te)]
        simp only [hid te]
        rw [lookup_mapSet]
        exact if_pos rfl
      · apply inject_foldl_timer_mem now f hta tl
        rw [scheduleEvent_immediate st (f te) now (hta te)]
        exact List.mem_append_right _ (List.mem_singleton.mpr rfl)
    · exact ih _ hnd' te htl

/-- A replacement string containing no `$` passes through
`getSubstitution` unchanged. -/
theorem getSubstitution_no_dollar :
    ∀ (matched pre suf rep : List Char), (Char.ofNat 36) ∉ rep →
      getSubstitution matched pre suf rep = rep
  | _, _, _, [], _ => rfl
  | _, _, _, [c], _ => rfl
  | matched, pre, suf, c :: c2 :: rest2, h => by
    have hc : ¬c = '$' := fun he => h (by rw [← he]; exact List.mem_cons_self c _)
    have h2 : (Char.ofNat 36) ∉ c2 :: rest2 := fun he => h (List.mem_cons_of_mem c he)
    simp only [getSubstitution, if_neg hc]
    rw [getSubstitution_no_dollar matched pre suf (c2 :: rest2) h2]

/-- For a `$`-free replacement the JavaScript-substituting global replace
coincides with the literal one. -/
theorem replaceAllLoop_no_dollar (pat rep : List Char)
    (h : (Char.ofNat 36) ∉ rep) :
    ∀ (fuel : Nat) (seen cs : List Char),
      replaceAllLoop pat rep fuel seen cs = literalReplaceAllLoop pat rep fuel cs
  | 0, _, _ => rfl
  | _ + 1, _, [] => rfl
  | fuel + 1, seen, c :: rest => by
    by_cases hm : pat ≠ [] ∧ (c :: rest).take pat.length = pat
    · simp only [replaceAllLoop, literalReplaceAllLoop, if_pos hm]
      rw [getSubstitution_no_dollar pat seen.reverse ((c :: rest).drop pat.length)
          rep h,
        replaceAllLoop_no_dollar pat rep h fuel _ _]
    · simp only [replaceAllLoop, literalReplaceAllLoop, if_neg hm]
      rw [replaceAllLoop_no_dollar pat rep h fuel _ _]

/-- Claim C4, amended: for a non-duplicate answer whose evaluated trigger
key is non-empty (with validation present the key is always `"correct"` or
`"wrong"`, hence non-empty), if the answered event's branches are an
unconditional list or contain an entry for the key, then every child
definition in that list (assuming the documented unique-id invariant among
the children) is injected and armed to fire immediately — zero delay, i.e.
at the current instant — with its content passed through JavaScript's
global replacement of the `\x7banswer\x7d` token by `String(answer)`,
which interprets `$`-substitution patterns in the answer and is exactly
the literal answer text whenever the answer contains no `$`; in
particular `"Nice, \x7banswer\x7d!"` with answer `"5"` becomes
`"Nice, 5!"`. -/
theorem processAnswer_injects (rt : String → String → Bool)
    (st : SchedulerState) (eventId : String) (answer : AnswerValue)
    (sid : String) (aae : List (String × String)) (now : Int)
    (event : EventConfig) (onAns : OnAnswerF EventConfig) (key : String)
    (hfind : st.events.find? (fun e => e.id = eventId) = Option.some event)
    (hona : event.onAnswer = Option.some onAns)
    (hkey : evaluateAnswer rt answer event = Option.some key)
    (hk : key ≠ "")
    (hnodup : ((selectTriggered onAns key).map EventConfig.id).Nodup) :
    (∀ te ∈ selectTriggered onAns key,
      ∃ h,
        ((processAnswer rt st eventId answer sid aae now).scheduledTimeouts).lookup te.id =
          Option.some h ∧
        (⟨h, withImmediateTrigger te now
            (substituteVariables (te.content.getD "") [("answer", answer)]),
          now⟩ : EventTimer) ∈
          (processAnswer rt st eventId answer sid aae now).eventTimers) ∧
    substituteVariables "Nice, \x7banswer\x7d!" [("answer", AnswerValue.str "5")] =
      "Nice, 5!" ∧
    ((Char.ofNat 36) ∉ (jsToString answer).data →
      ∀ content : String,
        substituteVariables content [("answer", answer)] =
          literalReplaceAll content "\x7banswer\x7d" (jsToString answer)) := by
  refine ⟨?_, rfl, ?_⟩
  · intro te hte
    simp only [processAnswer, hfind, hona, hkey, if_neg hk]
    by_cases hemp : (selectTriggered onAns key).isEmpty
    · exact absurd hte (by simp [List.isEmpty_iff.mp hemp])
    · simp only [hemp, Bool.false_eq_true, if_false]
      exact inject_foldl_lookup now
        (fun x => withImmediateTrigger x now
          (substituteVariables (x.content.getD "") [("answer", answer)]))
        (fun x => rfl) (fun x => rfl) (selectTriggered onAns key) st hnodup te hte
  · intro hd content
    show replaceAll content ("\x7b" ++ "answer" ++ "\x7d") (jsToString answer) =
      literalReplaceAll content "\x7banswer\x7d" (jsToString answer)
    unfold replaceAll literalReplaceAll
    exact congrArg String.mk
      (replaceAllLoop_no_dollar _ (jsToString answer).data hd _ _ _)

/-- Witness for the amended C4 (scenario D): answering `"5"` on the
validated event injects the child with content `"Nice, 5!"`, armed at the
current instant with its handle mapped under the child's id. -/
theorem processAnswer_injects_witness :
    ∃ h,
      ((processAnswer noRegex stQuiz "q5" (AnswerValue.str "5") "s1" [] 7).scheduledTimeouts).lookup "c1" =
        Option.some h ∧
      (⟨h, withImmediateTrigger evChild 7 "Nice, 5!", 7⟩ : EventTimer) ∈
        (processAnswer noRegex stQuiz "q5" (AnswerValue.str "5") "s1" [] 7).eventTimers := by
  obtain ⟨h, h1, h2⟩ := (processAnswer_injects noRegex stQuiz "q5"
    (AnswerValue.str "5") "s1" [] 7 evQuiz (.keyed [("correct", [evChild])])
    "correct" (by rfl) (by rfl) (by rfl) (by decide) (by decide)).1 evChild
    (List.mem_singleton.mpr rfl)
  exact ⟨h, h1, h2⟩

/-- Counterexample to C4 as stated: first, the event has a non-empty
unconditional branch list, yet the non-duplicate answer `""` (no
validation, so the trigger key is the literal answer, which is empty and
JS-falsy) injects nothing — the `if (!triggerKey)` guard returns before
scheduling; second, the substitution is not the literal answer text for
every answer: the answer `"$&"` produces the content
`"Nice, \x7banswer\x7d!"` (the `$&` pattern re-inserts the matched
token), not `"Nice, $&!"`. -/
theorem branch_injection_counterexample :
    (evBranching.onAnswer = Option.some (OnAnswerF.plain [evChild]) ∧
     (processAnswer noRegex stBranching "b1" (AnswerValue.str "") "s1" [] 0).scheduledTimeouts =
       [] ∧
     (processAnswer noRegex stBranching "b1" (AnswerValue.str "") "s1" [] 0).eventTimers =
       []) ∧
    substituteVariables "Nice, \x7banswer\x7d!" [("answer", AnswerValue.str "$&")] =
      "Nice, \x7banswer\x7d!" := ⟨⟨rfl, rfl, rfl⟩, rfl⟩



/-- Claim C5: for every event carrying a validation rule, `evaluateAnswer`
returns exactly the literal `"correct"` when the normalised (trimmed,
lowercased) answer satisfies the rule — ExactMatch: equals some
trimmed-and-lowercased entry of `correctAnswers`; RegexMatch: the pattern
matches the normalised answer; Custom: always — and exactly `"wrong"`
otherwise, never the raw answer; for event kinds where validation is
structurally inapplicable (neither question nor multiple choice) it always
returns `"correct"`; and for every event without a validation rule it
returns the answer itself when it is a string and its JSON stringification
otherwise. -/
theorem evaluateAnswer_trigger_key (rt : String → String → Bool)
    (ans : AnswerValue) (event : EventConfig) :
    (∀ rule, event.validation = Option.some rule →
      ((event.type = EventType.question ∨ event.type = EventType.multipleChoice) →
        evaluateAnswer rt ans event =
          Option.some
            (if specRuleSatisfied rt rule (normalizeJs ans) then "correct"
             else "wrong")) ∧
      ((event.type ≠ EventType.question ∧ event.type ≠ EventType.multipleChoice) →
        evaluateAnswer rt ans event = Option.some "correct")) ∧
    (event.validation = Option.none →
      evaluateAnswer rt ans event =
        Option.some (match ans with | .str s => s | v => jsonStringify v)) := by
  constructor
  · intro rule hval
    constructor
    · intro htype
      have hcond :
          ¬(event.type ≠ EventType.question ∧ event.type ≠ EventType.multipleChoice) := by
        tauto
      have hv : validateAnswer rt ans event =
          specRuleSatisfied rt rule (normalizeJs ans) := by
        unfold validateAnswer
        rw [if_neg hcond, hval]
        cases rule <;> rfl
      simp only [evaluateAnswer, hval, hv]
    · intro hcond
      have hv : validateAnswer rt ans event = true := by
        unfold validateAnswer
        rw [if_pos hcond]
      simp only [evaluateAnswer, hval, hv, if_true]
  · intro hval
    simp only [evaluateAnswer, hval]

/-- Witness for C5 (scenario C): ExactMatch `["5"]` and the answer
`" 5 "` normalise to a match, so the trigger key is `"correct"`. -/
theorem evaluateAnswer_trigger_key_witness :
    evaluateAnswer noRegex (.str " 5 ") evExact5 = Option.some "correct" :=
  (((evaluateAnswer_trigger_key noRegex (.str " 5 ") evExact5).1
      (.exact ["5"]) (by rfl)).1 (Or.inl (by rfl))).trans (by rfl)

/-- A stale auto-hide firing while nothing is showing only consumes the
timer: the guard fails and the slot stays empty. -/
theorem fireAutoHide_no_current (st : SchedulerState) (i : Nat)
    (a : AutoHideTimer) (h : st.currentEvent = Option.none) :
    fireAutoHide st i a =
      { st with autoHideTimers := st.autoHideTimers.eraseIdx i } := by
  simp [fireAutoHide, h]

/-- Once no event timer is armed and nothing is showing, advancing time
keeps that state: only auto-hide timers can fire and none of them mutates
the slot or the timer map. -/
theorem advanceLoop_after_reset :
    ∀ (fuel : Nat) (st : SchedulerState) (t : Int),
      st.eventTimers = [] → st.currentEvent = Option.none →
      (advanceLoop fuel st t).1.eventTimers = [] ∧
      (advanceLoop fuel st t).1.currentEvent = Option.none ∧
      (advanceLoop fuel st t).1.gameStartTime = st.gameStartTime ∧
      (advanceLoop fuel st t).1.events = st.events ∧
      (advanceLoop fuel st t).1.scheduledTimeouts = st.scheduledTimeouts ∧
      ∀ f ∈ (advanceLoop fuel st t).2, ∃ i, f = FiredTimer.autoHide i := by
  intro fuel
  induction fuel with
  | zero =>
    intro st t h1 h2
    exact ⟨h1, h2, rfl, rfl, rfl, by simp [advanceLoop]⟩
  | succ fuel ih =>
    intro st t h1 h2
    have hes : earliestEventTimer st.eventTimers = Option.none := by
      rw [h1]; rfl
    have hstep : fireStep st t = Option.none ∨
        ∃ i a, a.fireAt ≤ t ∧
          fireStep st t =
            Option.some (fireAutoHide st i a, FiredTimer.autoHide a.eventId) := by
      unfold fireStep
      rw [hes]
      cases hea : earliestAutoHide st.autoHideTimers with
      | none => exact Or.inl rfl
      | some p =>
        obtain ⟨i, a⟩ := p
        dsimp only
        by_cases hft : a.fireAt ≤ t
        · exact Or.inr ⟨i, a, hft, by rw [if_pos hft]⟩
        · exact Or.inl (by rw [if_neg hft])
    rcases hstep with hnone | ⟨i, a, hft, hsome⟩
    · have hred : advanceLoop (fuel + 1) st t = (st, []) := by
        simp only [advanceLoop, hnone]
      rw [hred]
      exact ⟨h1, h2, rfl, rfl, rfl, by simp⟩
    · have hred : advanceLoop (fuel + 1) st t =
          ((advanceLoop fuel (fireAutoHide st i a) t).1,
            FiredTimer.autoHide a.eventId ::
              (advanceLoop fuel (fireAutoHide st i a) t).2) := by
        simp only [advanceLoop, hsome]
      rw [hred]
      have h1' : (fireAutoHide st i a).eventTimers = [] := by
        rw [fireAutoHide_no_current st i a h2]
        exact h1
      have h2' : (fireAutoHide st i a).currentEvent = Option.none := by
        rw [fireAutoHide_no_current st i a h2]
        exact h2
      obtain ⟨g1, g2, g3, g4, g5, g6⟩ := ih (fireAutoHide st i a) t h1' h2'
      refine ⟨g1, g2, ?_, ?_, ?_, ?_⟩
      · rw [g3, fireAutoHide_no_current st i a h2]
      · rw [g4, fireAutoHide_no_current st i a h2]
      · rw [g5, fireAutoHide_no_current st i a h2]
      · intro f hf
        simp only [List.mem_cons] at hf
        rcases hf with hf | hf
        · exact ⟨a.eventId, hf⟩
        · exact g6 f hf

/-- When every armed event timer's handle is still tracked in the
`scheduledTimeouts` map (no timer was orphaned by re-arming an id),
`reset` cancels them all. -/
theorem reset_eventTimers_nil (st : SchedulerState)
    (horphan : ∀ tm ∈ st.eventTimers,
      ∃ kv ∈ st.scheduledTimeouts, kv.2 = tm.handle) :
    (reset st).eventTimers = [] := by
  simp only [reset]
  rw [List.filter_eq_nil_iff]
  intro tm htm
  obtain ⟨kv, hkv, hh⟩ := horphan tm htm
  have hany : st.scheduledTimeouts.any (fun kv2 => kv2.2 == tm.handle) = true :=
    List.any_eq_true.mpr ⟨kv, hkv, by simp [hh]⟩
  simp [hany]

/-- Claim C6, amended: `reset` cancels exactly the event-trigger timers
whose handles are stored in the `scheduledTimeouts` map, clears the
current broadcast event and sets `gameStartTime` to null; auto-hide
timers, and event-trigger timers orphaned when `Map.set` overwrote their
entry under a re-used event id, are NOT cancelled and may still fire after
the reset. When no armed event timer was orphaned — the invariant every
unique-id timeline scheduled once maintains — no event timer survives the
reset, so any subsequent advancement of time fires only stale auto-hide
timers, leaves the scheduler's timeline, start time, current event and
timer map unchanged, and `getCurrentEvent` returns null. -/
theorem reset_behaviour (st : SchedulerState) (t : Int)
    (horphan : ∀ tm ∈ st.eventTimers,
      ∃ kv ∈ st.scheduledTimeouts, kv.2 = tm.handle) :
    (reset st).eventTimers = [] ∧
    (reset st).scheduledTimeouts = [] ∧
    (reset st).currentEvent = Option.none ∧
    (reset st).gameStartTime = Option.none ∧
    (advanceTo (reset st) t).1.eventTimers = [] ∧
    (advanceTo (reset st) t).1.scheduledTimeouts = [] ∧
    (advanceTo (reset st) t).1.currentEvent = Option.none ∧
    (advanceTo (reset st) t).1.gameStartTime = Option.none ∧
    (advanceTo (reset st) t).1.events = st.events ∧
    (∀ f ∈ (advanceTo (reset st) t).2, ∃ i, f = FiredTimer.autoHide i) ∧
    getCurrentEvent (advanceTo (reset st) t).1 = Option.none := by
  have hnil : (reset st).eventTimers = [] := reset_eventTimers_nil st horphan
  obtain ⟨g1, g2, g3, g4, g5, g6⟩ :=
    advanceLoop_after_reset (timerFuel (reset st)) (reset st) t hnil rfl
  exact ⟨hnil, rfl, rfl, rfl, g1, g5, g2, g3, g4, g6, g2⟩

/-- Witness for the amended C6: after a concrete reset (of a state with no
orphaned event timer), advancing time leaves the broadcast slot empty. -/
theorem reset_behaviour_witness :
    getCurrentEvent (advanceTo (reset stFired) 20).1 = Option.none :=
  (reset_behaviour stFired 20
      (fun tm htm =>
        absurd ((show stFired.eventTimers = [] from rfl) ▸ htm)
          (List.not_mem_nil tm))).2.2.2.2.2.2.2.2.2.2

/-- Counterexample to C6 as stated: first, an auto-hide timer armed before
`reset` (due at 15) is not cancelled by it — advancing time after the
reset still fires it; second, of the two event-trigger timers armed under
the duplicated id `"dup"`, `reset` cancels only the one whose handle the
map still holds — the orphaned timer survives, fires after the reset and
re-populates the current broadcast event, contradicting "reset cancels
every armed timer", "subsequent advancement fires none of the previously
armed timers" and "causes no mutation of scheduler state". -/
theorem reset_uncancelled_timers_counterexample :
    (stFired.autoHideTimers = [⟨"e1", 15⟩] ∧
     (advanceTo (reset stFired) 20).2 = [FiredTimer.autoHide "e1"]) ∧
    ((advanceTo (reset stOrphan) 20).2 = [FiredTimer.eventTimer "dup"] ∧
     (advanceTo (reset stOrphan) 20).1.currentEvent =
       Option.some (eventToDisplayEvent evDupTimerA)) := ⟨⟨rfl, rfl⟩, ⟨rfl, rfl⟩⟩

/-- Counterexample to C8 as stated: loading a timeline containing two
distinct events with the same id returns normally and stores the invalid
list verbatim — no validation error is thrown at load time. -/
theorem loadEvents_accepts_duplicate_ids :
    evDupA.id = evDupB.id ∧ evDupA ≠ evDupB ∧
    (loadEvents initialScheduler ⟨[evDupA, evDupB]⟩).events =
      [evDupA, evDupB] := by
  refine ⟨rfl, ?_, rfl⟩
  intro h
  have : evDupA.content = evDupB.content := by rw [h]
  simp [evDupA, evDupB, EventConfig.content, EventConfig.base] at this

/-- Claim C8, amended: `loadEvents` performs no validation at all: it
stores any supplied definition list verbatim (duplicate ids included) and
touches nothing else — there is no rejecting outcome. -/
theorem loadEvents_stores_verbatim (st : SchedulerState)
    (config : EventsConfig) :
    (loadEvents st config).events = config.events ∧
    (loadEvents st config).gameStartTime = st.gameStartTime ∧
    (loadEvents st config).currentEvent = st.currentEvent ∧
    (loadEvents st config).scheduledTimeouts = st.scheduledTimeouts ∧
    (loadEvents st config).autoHideTimers = st.autoHideTimers :=
  ⟨rfl, rfl, rfl, rfl, rfl⟩


end HalloweenGame
